import Mathlib

/-!
Verification of the capstone backend ingestion service.

The service (src/backend-a/index.js, and the shorter duplicate source file
with the same logic) is an Express application with a CORS middleware, three
GET routes, and one POST upload route backed by a PostgreSQL table
`requests(id SERIAL, backend_name TEXT, ts TIMESTAMP DEFAULT NOW(), meta JSONB,
image BYTEA)` (src/db/init.sql).

The embedding below models:
  - uploaded files as lists of byte values (`List Nat`, values < 256),
  - Node `Buffer.prototype.toString` with the base64 argument as `base64Encode`,
  - the table as a list of rows plus the SERIAL counter and a strictly
    increasing insertion clock standing for `NOW()` under sequential requests,
  - `INSERT INTO requests ...` as `Db.insert`,
  - `SELECT id, backend_name, ts, meta FROM requests ORDER BY ts DESC LIMIT 5`
    as `selectRecent` (sort by descending `ts`, take 5, project the four
    selected columns),
  - a request as method, path and the optional multipart field `image`,
  - datastore failure of either query as an explicit `DbFailure` input carrying
    the driver error message,
  - the whole application (CORS middleware, routing, handlers, catch block) as
    the function `handle`, returning the HTTP response, the table state after
    the request, and the `console.error` log lines.
-/

namespace Capstone

/-- Byte contents of an uploaded file: `req.file.buffer` as a list of byte
values. -/
abbrev Bytes := List Nat

/-! ### Base64 (Node `buffer.toString` with the base64 encoding) -/

/-- The standard base64 alphabet used by Node buffers. -/
def base64Alphabet : String :=
  "ABCDEFGHIJKLMNOPQRSTUVWXYZabcdefghijklmnopqrstuvwxyz0123456789+/"

/-- Character for a 6-bit value. -/
def b64Char (n : Nat) : Char :=
  base64Alphabet.toList.getD n 'A'

/-- 6-bit value of an alphabet character. -/
def b64Val (c : Char) : Nat :=
  base64Alphabet.toList.findIdx (fun x => x == c)

/-- Base64 character stream of a byte list, 3 input bytes per 4 output
characters, with `=` padding on a 1- or 2-byte tail. -/
def base64EncodeChars : List Nat → List Char
  | [] => []
  | [a] => [b64Char (a / 4), b64Char (a % 4 * 16), '=', '=']
  | [a, b] => [b64Char (a / 4), b64Char (a % 4 * 16 + b / 16), b64Char (b % 16 * 4), '=']
  | a :: b :: c :: rest =>
      b64Char (a / 4) :: b64Char (a % 4 * 16 + b / 16) ::
        b64Char (b % 16 * 4 + c / 64) :: b64Char (c % 64) :: base64EncodeChars rest

/-- `image.toString` with the base64 encoding, as Node computes it. -/
def base64Encode (B : Bytes) : String :=
  String.mk (base64EncodeChars B)

/-- Byte list recovered from a stream of 6-bit values (padding already
stripped). -/
def base64DecodeVals : List Nat → List Nat
  | [v1, v2] => [v1 * 4 + v2 / 16]
  | [v1, v2, v3] => [v1 * 4 + v2 / 16, v2 % 16 * 16 + v3 / 4]
  | v1 :: v2 :: v3 :: v4 :: rest =>
      (v1 * 4 + v2 / 16) :: (v2 % 16 * 16 + v3 / 4) :: (v3 % 4 * 64 + v4) ::
        base64DecodeVals rest
  | _ => []

/-- Base64 decoding: strip padding, map characters to 6-bit values, regroup
into bytes.  Used to state that `base64Encode` loses no information. -/
def base64Decode (s : String) : Bytes :=
  base64DecodeVals ((s.toList.filter (fun c => c != '=')).map b64Val)

/-! ### The data model (src/db/init.sql) -/

/-- The `meta` JSONB document; the service only ever writes
`JSON.stringify(meta)` of the object with the single `uploaded` flag. -/
structure Meta where
  uploaded : Bool
deriving Repr, DecidableEq

/-- One row of the `requests` table. -/
structure DbRow where
  id : Nat
  backend_name : String
  ts : Nat
  meta : Meta
  image : Option Bytes
deriving Repr, DecidableEq

/-- A row as returned by the read-back query, which selects only
`id, backend_name, ts, meta` and never the `image` column. -/
structure RespRow where
  id : Nat
  backend_name : String
  ts : Nat
  meta : Meta
deriving Repr, DecidableEq

/-- The datastore: the table rows in insertion order, the next `SERIAL` id,
and a clock standing for `NOW()`; the clock advances at each insert, which is
the strictly increasing timestamp assignment of sequential requests. -/
structure Db where
  rows : List DbRow
  nextId : Nat
  clock : Nat
deriving Repr, DecidableEq

/-- The table before any insert: `SERIAL` starts at 1. -/
def emptyDb : Db := ⟨[], 1, 0⟩

/-- The row written by
`INSERT INTO requests (backend_name, meta, image) VALUES ($1, $2, $3)`:
`id` and `ts` are store-assigned, the three values come from the handler. -/
def insertedRow (db : Db) (backend : String) (meta : Meta) (image : Option Bytes) : DbRow :=
  ⟨db.nextId, backend, db.clock, meta, image⟩

/-- Effect of the `INSERT` statement on the store. -/
def Db.insert (db : Db) (backend : String) (meta : Meta) (image : Option Bytes) : Db :=
  ⟨db.rows ++ [insertedRow db backend meta image], db.nextId + 1, db.clock + 1⟩

/-- `ORDER BY ts DESC`: row `a` may precede row `b` when `b.ts ≤ a.ts`. -/
def tsGE (a b : DbRow) : Prop := b.ts ≤ a.ts

instance : DecidableRel tsGE := fun a b => inferInstanceAs (Decidable (b.ts ≤ a.ts))

/-- Column projection of the read-back `SELECT id, backend_name, ts, meta`. -/
def projRow (r : DbRow) : RespRow :=
  ⟨r.id, r.backend_name, r.ts, r.meta⟩

/-- `SELECT id, backend_name, ts, meta FROM requests ORDER BY ts DESC LIMIT 5`:
no `WHERE` clause, so no filter by `backend_name`. -/
def selectRecent (rows : List DbRow) : List RespRow :=
  ((List.insertionSort tsGE rows).take 5).map projRow

/-! ### The HTTP surface (src/backend-a/index.js) -/

/-- A JSON leaf that is either a number or a string; needed because
`process.env.PORT` is a string when set, while the default `8080` is a
number, and `PORT || 8080` keeps whichever it evaluates to. -/
inductive JsValue where
  | num (n : Nat)
  | str (s : String)
deriving Repr, DecidableEq

/-- Whether a JSON leaf is a number. -/
def JsValue.isNum : JsValue → Bool
  | .num _ => true
  | .str _ => false

/-- `const PORT = process.env.PORT || 8080`: the env value is a string; the
empty string is falsy in JavaScript, any other string is truthy. -/
def portValue (envPort : Option String) : JsValue :=
  match envPort with
  | some s => if s = "" then JsValue.num 8080 else JsValue.str s
  | none => JsValue.num 8080

/-- HTTP methods routed by the application. -/
inductive Method where
  | get
  | post
  | options
deriving Repr, DecidableEq

/-- An incoming request: method, path, and the optional multipart file under
field `image` (`req.file` after the multer middleware). -/
structure Request where
  method : Method
  path : String
  file : Option Bytes
deriving Repr, DecidableEq

/-- The JSON (or text) body of each response the application can produce. -/
inductive Body where
  | text (s : String)
  | root (backend message health api : String)
  | health (status backend : String) (port : JsValue)
  | apiInfo (backend message endpoint : String)
  | postOk (backend : String) (rows : List RespRow) (uploadedImage : Option String)
  | err (error details : String)
  | notFound
deriving Repr, DecidableEq

/-- An HTTP response: status code, headers, body. -/
structure HttpResponse where
  status : Nat
  headers : List (String × String)
  body : Body
deriving Repr, DecidableEq

/-- The three headers the CORS middleware sets on every response. -/
def corsHeaders : List (String × String) :=
  [ ("Access-Control-Allow-Origin", "*"),
    ("Access-Control-Allow-Methods", "GET, POST, OPTIONS"),
    ("Access-Control-Allow-Headers", "Content-Type")]

/-- The constants distinguishing a deployed instance: the `BACKEND` identity
string, the API route path, and the `PORT` environment variable. -/
structure AppConfig where
  backend : String
  apiPath : String
  envPort : Option String
deriving Repr, DecidableEq

/-- Whether, and at which of the two queries, the datastore fails during a
POST; carries the driver error message (`err.message`). -/
inductive DbFailure where
  | healthy
  | insertFail (msg : String)
  | selectFail (msg : String)
deriving Repr, DecidableEq

/-- The POST handler body: extract `req.file` bytes or null, build
`meta = \x7b uploaded: !!image \x7d` (a Buffer is an object, hence truthy even
when empty, so the flag is file presence), INSERT, read back the recent 5,
answer 200; any thrown datastore error is caught, logged as
`console.error` and answered as a 500 with the fixed label and the raw
message.  Returns the response, the table state after the request, and the
log lines. -/
def handlePost (c : AppConfig) (db : Db) (fl : DbFailure) (file : Option Bytes) :
    HttpResponse × Db × List String :=
  let meta : Meta := ⟨file.isSome⟩
  match fl with
  | DbFailure.insertFail msg =>
      (⟨500, corsHeaders, Body.err "Database not responding" msg⟩, db,
        [ "Database error: " ++ msg])
  | DbFailure.selectFail msg =>
      (⟨500, corsHeaders, Body.err "Database not responding" msg⟩,
        db.insert c.backend meta file, [ "Database error: " ++ msg])
  | DbFailure.healthy =>
      let db' := db.insert c.backend meta file
      (⟨200, corsHeaders,
          Body.postOk c.backend (selectRecent db'.rows) (file.map base64Encode)⟩,
        db', [])

/-- The whole application: the CORS middleware answers every OPTIONS request
with `res.sendStatus(200)` (status 200 and the status text body `OK`); then
`GET /`, `GET /health`, `GET <api path>`, `POST <api path>` in registration
order; any other request falls through to the framework 404. -/
def handle (c : AppConfig) (db : Db) (fl : DbFailure) (req : Request) :
    HttpResponse × Db × List String :=
  if req.method = Method.options then
    (⟨200, corsHeaders, Body.text "OK"⟩, db, [])
  else if req.method = Method.get ∧ req.path = "/" then
    (⟨200, corsHeaders,
        Body.root c.backend "Backend service is running" "/health"
          (c.apiPath ++ " (POST for data submission)")⟩, db, [])
  else if req.method = Method.get ∧ req.path = "/health" then
    (⟨200, corsHeaders, Body.health "ok" c.backend (portValue c.envPort)⟩, db, [])
  else if req.method = Method.get ∧ req.path = c.apiPath then
    (⟨200, corsHeaders, Body.apiInfo c.backend "Use POST to submit data" c.apiPath⟩, db, [])
  else if req.method = Method.post ∧ req.path = c.apiPath then
    handlePost c db fl req.file
  else
    (⟨404, corsHeaders, Body.notFound⟩, db, [])

/-- The deployed instance of src/backend-a/index.js:
`BACKEND = "backend-a"`, routes under `/api/a`. -/
def cfgA (envPort : Option String) : AppConfig :=
  ⟨ "backend-a", "/api/a", envPort⟩

/-- Modelled from the spec: the second deployed instance `backend-b` is not
among the repository source files (only `backend-a` sources are present); per
the spec it runs the identical logic with identity constant `backend-b` and
route `/api/b`, writing to the same shared table. -/
def cfgB (envPort : Option String) : AppConfig :=
  ⟨ "backend-b", "/api/b", envPort⟩

/-! ### Base64 losslessness -/

/-- The 6-bit value of an alphabet character is recovered by `b64Val`. -/
theorem b64Val_b64Char : ∀ n, n < 64 → b64Val (b64Char n) = n := by decide

/-- Alphabet characters are never the padding character. -/
theorem b64Char_ne_pad : ∀ n, n < 64 → (b64Char n != '=') = true := by decide

/-- Decoding inverts the character-level encoding on byte lists. -/
theorem base64_decodeVals_encodeChars :
    ∀ B : Bytes, (∀ b ∈ B, b < 256) →
      base64DecodeVals
        (((base64EncodeChars B).filter (fun c => c != '=')).map b64Val) = B := by
  intro B
  induction B using base64EncodeChars.induct with
  | case1 => intro _; rfl
  | case2 a =>
      intro h
      have ha : a < 256 := h a (by simp)
      have h1 : a / 4 < 64 := by omega
      have h2 : a % 4 * 16 < 64 := by omega
      simp only [base64EncodeChars, List.filter_cons, List.filter_nil,
        b64Char_ne_pad _ h1, b64Char_ne_pad _ h2, bne_self_eq_false,
        if_true, if_false, List.map_cons, List.map_nil,
        b64Val_b64Char _ h1, b64Val_b64Char _ h2, base64DecodeVals,
        List.cons.injEq, and_true]
      omega
  | case3 a b =>
      intro h
      have ha : a < 256 := h a (by simp)
      have hb : b < 256 := h b (by simp)
      have h1 : a / 4 < 64 := by omega
      have h2 : a % 4 * 16 + b / 16 < 64 := by omega
      have h3 : b % 16 * 4 < 64 := by omega
      simp only [base64EncodeChars, List.filter_cons, List.filter_nil,
        b64Char_ne_pad _ h1, b64Char_ne_pad _ h2, b64Char_ne_pad _ h3,
        bne_self_eq_false, if_true, if_false, List.map_cons, List.map_nil,
        b64Val_b64Char _ h1, b64Val_b64Char _ h2, b64Val_b64Char _ h3,
        base64DecodeVals, List.cons.injEq, and_true]
      omega
  | case4 a b c rest ih =>
      intro h
      have ha : a < 256 := h a (by simp)
      have hb : b < 256 := h b (by simp)
      have hc : c < 256 := h c (by simp)
      have hrest : ∀ x ∈ rest, x < 256 := fun x hx => h x (by simp [hx])
      have h1 : a / 4 < 64 := by omega
      have h2 : a % 4 * 16 + b / 16 < 64 := by omega
      have h3 : b % 16 * 4 + c / 64 < 64 := by omega
      have h4 : c % 64 < 64 := by omega
      simp only [base64EncodeChars, List.filter_cons,
        b64Char_ne_pad _ h1, b64Char_ne_pad _ h2, b64Char_ne_pad _ h3,
        b64Char_ne_pad _ h4, if_true, List.map_cons,
        b64Val_b64Char _ h1, b64Val_b64Char _ h2, b64Val_b64Char _ h3,
        b64Val_b64Char _ h4, base64DecodeVals, List.cons.injEq]
      refine ⟨by omega, by omega, by omega, ih hrest⟩

/-- Base64 encoding is lossless on byte lists: decoding the encoded string
returns exactly the original bytes. -/
theorem base64_decode_encode (B : Bytes) (h : ∀ b ∈ B, b < 256) :
    base64Decode (base64Encode B) = B :=
  base64_decodeVals_encodeChars B h

/-! ### Claim theorems -/

/-- Claim C1: a POST to the upload endpoint with file bytes `B` under field
`image` answers 200 with `uploadedImage` the base64 encoding of exactly the
bytes `B` (the encoding is lossless, so it determines `B`), and the row
inserted by the request has `meta.uploaded = true` and `image = B`. -/
theorem post_with_file_roundtrip (env : Option String) (db : Db) (B : Bytes)
    (hB : ∀ b ∈ B, b < 256) :
    handle (cfgA env) db DbFailure.healthy ⟨Method.post, "/api/a", some B⟩ =
      (⟨200, corsHeaders,
          Body.postOk "backend-a"
            (selectRecent (db.rows ++ [⟨db.nextId, "backend-a", db.clock, ⟨true⟩, some B⟩]))
            (some (base64Encode B))⟩,
        ⟨db.rows ++ [⟨db.nextId, "backend-a", db.clock, ⟨true⟩, some B⟩],
          db.nextId + 1, db.clock + 1⟩,
        []) ∧
    base64Decode (base64Encode B) = B :=
  ⟨rfl, base64_decode_encode B hB⟩

/-- A concrete 10-byte payload, as in the upload round-trip property of the
spec. -/
def bytes10 : Bytes := [7, 0, 255, 34, 128, 64, 3, 99, 250, 17]

/-- Claim C1, witness: the round-trip theorem at a concrete 10-byte payload
over the empty table. -/
theorem post_with_file_roundtrip_witness :
    (∀ b ∈ bytes10, b < 256) ∧
    (handle (cfgA none) emptyDb DbFailure.healthy ⟨Method.post, "/api/a", some bytes10⟩ =
      (⟨200, corsHeaders,
          Body.postOk "backend-a"
            (selectRecent (emptyDb.rows ++
              [⟨emptyDb.nextId, "backend-a", emptyDb.clock, ⟨true⟩, some bytes10⟩]))
            (some (base64Encode bytes10))⟩,
        ⟨emptyDb.rows ++ [⟨emptyDb.nextId, "backend-a", emptyDb.clock, ⟨true⟩, some bytes10⟩],
          emptyDb.nextId + 1, emptyDb.clock + 1⟩,
        []) ∧
      base64Decode (base64Encode bytes10) = bytes10) :=
  ⟨by decide, post_with_file_roundtrip none emptyDb bytes10 (by decide)⟩

/-- Claim C3: a POST with no file attached under field `image` is not an
error: it answers 200 with `uploadedImage` null, and the row inserted by the
request has `meta.uploaded = false` and a null `image`. -/
theorem post_without_file (env : Option String) (db : Db) :
    handle (cfgA env) db DbFailure.healthy ⟨Method.post, "/api/a", none⟩ =
      (⟨200, corsHeaders,
          Body.postOk "backend-a"
            (selectRecent (db.rows ++ [⟨db.nextId, "backend-a", db.clock, ⟨false⟩, none⟩]))
            none⟩,
        ⟨db.rows ++ [⟨db.nextId, "backend-a", db.clock, ⟨false⟩, none⟩],
          db.nextId + 1, db.clock + 1⟩,
        []) := rfl

/-- Claim C10: a POST with a zero-byte file under field `image` is treated as
having an image: the inserted row has `meta.uploaded = true` and the response
`uploadedImage` is the empty string, not null, because an empty Buffer is an
object and hence truthy — presence of the file, not its length, decides. -/
theorem post_zero_byte_file (env : Option String) (db : Db) :
    handle (cfgA env) db DbFailure.healthy ⟨Method.post, "/api/a", some []⟩ =
      (⟨200, corsHeaders,
          Body.postOk "backend-a"
            (selectRecent (db.rows ++ [⟨db.nextId, "backend-a", db.clock, ⟨true⟩, some []⟩]))
            (some "")⟩,
        ⟨db.rows ++ [⟨db.nextId, "backend-a", db.clock, ⟨true⟩, some []⟩],
          db.nextId + 1, db.clock + 1⟩,
        []) := rfl

/-- Claim C4: when either the insert or the read-back fails with driver
message `msg`, the POST answers 500 with body
`error = Database not responding`, `details = msg`; the failure is logged;
when the insert failed the table is unchanged, and when the read-back failed
the inserted row stays committed (no rollback); and `GET /health` still
answers 200 afterwards on either resulting state, whatever the datastore
condition — the process does not crash. -/
theorem db_failure_surfaced (env : Option String) (db : Db) (msg : String)
    (f : Option Bytes) (fl2 : DbFailure) :
    (handle (cfgA env) db (DbFailure.insertFail msg) ⟨Method.post, "/api/a", f⟩ =
      (⟨500, corsHeaders, Body.err "Database not responding" msg⟩, db,
        [ "Database error: " ++ msg])) ∧
    (handle (cfgA env) db (DbFailure.selectFail msg) ⟨Method.post, "/api/a", f⟩ =
      (⟨500, corsHeaders, Body.err "Database not responding" msg⟩,
        db.insert "backend-a" ⟨f.isSome⟩ f, [ "Database error: " ++ msg])) ∧
    (handle (cfgA env) db fl2 ⟨Method.get, "/health", none⟩).1.status = 200 ∧
    (handle (cfgA env) (db.insert "backend-a" ⟨f.isSome⟩ f) fl2
        ⟨Method.get, "/health", none⟩).1.status = 200 :=
  ⟨rfl, rfl, rfl, rfl⟩

/-! ### The read-back query on sequentially timestamped tables -/

/-- Inserting an element that every list element beats under `tsGE` puts it
at the end. -/
theorem orderedInsert_of_forall_not :
    ∀ (a : DbRow) (l : List DbRow), (∀ x ∈ l, ¬ tsGE a x) →
      List.orderedInsert tsGE a l = l ++ [a] := by
  intro a l
  induction l with
  | nil => intro _; rfl
  | cons b l ih =>
      intro h
      have hb : ¬ tsGE a b := h b (by simp)
      simp only [List.orderedInsert, if_neg hb, List.cons_append, List.cons.injEq, true_and]
      exact ih (fun x hx => h x (by simp [hx]))

/-- On a table whose timestamps strictly increase in insertion order (the
sequential-request model), sorting by descending `ts` reverses the list. -/
theorem insertionSort_of_strictAsc :
    ∀ l : List DbRow, List.Pairwise (fun x y => x.ts < y.ts) l →
      List.insertionSort tsGE l = l.reverse := by
  intro l
  induction l with
  | nil => intro _; rfl
  | cons a l ih =>
      intro h
      rw [List.pairwise_cons] at h
      obtain ⟨ha, hl⟩ := h
      show List.orderedInsert tsGE a (List.insertionSort tsGE l) = (a :: l).reverse
      rw [ih hl, List.reverse_cons]
      refine orderedInsert_of_forall_not a l.reverse (fun x hx hle => ?_)
      have h1 := ha x (List.mem_reverse.mp hx)
      have h2 : x.ts ≤ a.ts := hle
      omega

/-- Claim C2: a successful POST answers with exactly the read-back query
result: the rows of the table after the insert — across all backend
identities, with no filter by `backend_name` — sorted by `ts` descending and
cut to 5, projected to `id, backend_name, ts, meta` only (the `image` column
is absent from `RespRow` by type); on a sequentially timestamped table this
is the newest-first reversal cut to 5, it has `min 5 (n+1)` entries, its
first entry is the row just inserted, and it is ordered by `ts`
descending. -/
theorem recent_five_readback (env : Option String) (db : Db) (f : Option Bytes)
    (hts : List.Pairwise (fun x y : DbRow => x.ts < y.ts) db.rows)
    (hclk : ∀ r ∈ db.rows, r.ts < db.clock) :
    handle (cfgA env) db DbFailure.healthy ⟨Method.post, "/api/a", f⟩ =
      (⟨200, corsHeaders,
          Body.postOk "backend-a"
            (selectRecent (db.insert "backend-a" ⟨f.isSome⟩ f).rows)
            (f.map base64Encode)⟩,
        db.insert "backend-a" ⟨f.isSome⟩ f, []) ∧
    selectRecent (db.insert "backend-a" ⟨f.isSome⟩ f).rows =
      ((insertedRow db "backend-a" ⟨f.isSome⟩ f :: db.rows.reverse).take 5).map projRow ∧
    (selectRecent (db.insert "backend-a" ⟨f.isSome⟩ f).rows).length =
      min 5 (db.rows.length + 1) ∧
    (selectRecent (db.insert "backend-a" ⟨f.isSome⟩ f).rows).head? =
      some (projRow (insertedRow db "backend-a" ⟨f.isSome⟩ f)) ∧
    List.Pairwise (fun x y : RespRow => y.ts ≤ x.ts)
      (selectRecent (db.insert "backend-a" ⟨f.isSome⟩ f).rows) := by
  have hpair : List.Pairwise (fun x y : DbRow => x.ts < y.ts)
      (db.rows ++ [insertedRow db "backend-a" ⟨f.isSome⟩ f]) := by
    rw [List.pairwise_append]
    refine ⟨hts, List.pairwise_singleton _ _, ?_⟩
    intro x hx y hy
    rw [List.mem_singleton] at hy
    subst hy
    exact hclk x hx
  have hrv : insertedRow db "backend-a" ⟨f.isSome⟩ f :: db.rows.reverse =
      (db.rows ++ [insertedRow db "backend-a" ⟨f.isSome⟩ f]).reverse := by
    rw [List.reverse_append]
    rfl
  have hsort : List.insertionSort tsGE
      (db.rows ++ [insertedRow db "backend-a" ⟨f.isSome⟩ f]) =
      insertedRow db "backend-a" ⟨f.isSome⟩ f :: db.rows.reverse := by
    rw [insertionSort_of_strictAsc _ hpair, hrv]
  have hsel : selectRecent (db.insert "backend-a" ⟨f.isSome⟩ f).rows =
      ((insertedRow db "backend-a" ⟨f.isSome⟩ f :: db.rows.reverse).take 5).map projRow := by
    show ((List.insertionSort tsGE
        (db.rows ++ [insertedRow db "backend-a" ⟨f.isSome⟩ f])).take 5).map projRow = _
    rw [hsort]
  refine ⟨rfl, hsel, ?_, ?_, ?_⟩
  · rw [hsel]
    simp only [List.length_map, List.length_take, List.length_cons, List.length_reverse]
  · rw [hsel]
    rfl
  · rw [hsel]
    refine List.pairwise_map.mpr ?_
    refine List.Pairwise.sublist (List.take_sublist _ _) ?_
    rw [hrv]
    exact List.pairwise_reverse.mpr (hpair.imp fun h => le_of_lt h)

/-- A table holding six sequential rows written alternately by the two
instances, as after six mixed uploads. -/
def db6 : Db :=
  ⟨[⟨1, "backend-a", 0, ⟨false⟩, none⟩, ⟨2, "backend-b", 1, ⟨false⟩, none⟩,
    ⟨3, "backend-a", 2, ⟨false⟩, none⟩, ⟨4, "backend-b", 3, ⟨false⟩, none⟩,
    ⟨5, "backend-a", 4, ⟨false⟩, none⟩, ⟨6, "backend-b", 5, ⟨false⟩, none⟩], 7, 6⟩

/-- The 7th upload's file in the concrete recent-5 scenario. -/
def file3 : Option Bytes := some [1, 2, 3]

/-- Claim C2, witness: the 7th sequential POST after six mixed inserts — the
response has exactly 5 rows and its first entry is the row just inserted
(id 7). -/
theorem recent_five_readback_witness :
    List.Pairwise (fun x y : DbRow => x.ts < y.ts) db6.rows ∧
    (∀ r ∈ db6.rows, r.ts < db6.clock) ∧
    (handle (cfgA none) db6 DbFailure.healthy ⟨Method.post, "/api/a", file3⟩ =
      (⟨200, corsHeaders,
          Body.postOk "backend-a"
            (selectRecent (db6.insert "backend-a" ⟨file3.isSome⟩ file3).rows)
            (file3.map base64Encode)⟩,
        db6.insert "backend-a" ⟨file3.isSome⟩ file3, []) ∧
    selectRecent (db6.insert "backend-a" ⟨file3.isSome⟩ file3).rows =
      ((insertedRow db6 "backend-a" ⟨file3.isSome⟩ file3 :: db6.rows.reverse).take 5).map projRow ∧
    (selectRecent (db6.insert "backend-a" ⟨file3.isSome⟩ file3).rows).length =
      min 5 (db6.rows.length + 1) ∧
    (selectRecent (db6.insert "backend-a" ⟨file3.isSome⟩ file3).rows).head? =
      some (projRow (insertedRow db6 "backend-a" ⟨file3.isSome⟩ file3)) ∧
    List.Pairwise (fun x y : RespRow => y.ts ≤ x.ts)
      (selectRecent (db6.insert "backend-a" ⟨file3.isSome⟩ file3).rows)) :=
  ⟨by decide, by decide,
    recent_five_readback none db6 file3 (by decide) (by decide)⟩

/-! ### Table effect of a request -/

/-- A POST handler run leaves the table unchanged or appends the one row it
built. -/
theorem handlePost_rows (c : AppConfig) (db : Db) (fl : DbFailure) (f : Option Bytes) :
    (handlePost c db fl f).2.1.rows = db.rows ∨
    (handlePost c db fl f).2.1.rows = db.rows ++ [insertedRow db c.backend ⟨f.isSome⟩ f] := by
  cases fl with
  | healthy => exact Or.inr rfl
  | insertFail msg => exact Or.inl rfl
  | selectFail msg => exact Or.inr rfl

/-- Any request leaves the table unchanged or appends the row built from its
file field. -/
theorem handle_rows (c : AppConfig) (db : Db) (fl : DbFailure) (req : Request) :
    (handle c db fl req).2.1.rows = db.rows ∨
    (handle c db fl req).2.1.rows =
      db.rows ++ [insertedRow db c.backend ⟨req.file.isSome⟩ req.file] := by
  unfold handle
  split
  · exact Or.inl rfl
  · split
    · exact Or.inl rfl
    · split
      · exact Or.inl rfl
      · split
        · exact Or.inl rfl
        · split
          · exact handlePost_rows c db fl req.file
          · exact Or.inl rfl

/-- Claim C5: every row written by the service has `meta.uploaded` true
exactly when its `image` is non-null: the flag is `!!image`, the stored bytes
are the same `image`, so the property is preserved by every request on any
table that already satisfies it. -/
theorem rows_uploaded_iff_image (c : AppConfig) (db : Db) (fl : DbFailure) (req : Request)
    (h : ∀ r ∈ db.rows, r.meta.uploaded = r.image.isSome) :
    ∀ r ∈ (handle c db fl req).2.1.rows, r.meta.uploaded = r.image.isSome := by
  intro r hr
  rcases handle_rows c db fl req with he | he
  · rw [he] at hr
    exact h r hr
  · rw [he] at hr
    rcases List.mem_append.mp hr with h1 | h1
    · exact h r h1
    · rw [List.mem_singleton] at h1
      subst h1
      rfl

/-- A table with one row written by the other instance, image present and
flag set. -/
def db1 : Db := ⟨[⟨1, "backend-b", 0, ⟨true⟩, some [5]⟩], 2, 1⟩

/-- Claim C5, witness: the invariant carries over a concrete upload onto a
one-row table. -/
theorem rows_uploaded_iff_image_witness :
    (∀ r ∈ db1.rows, r.meta.uploaded = r.image.isSome) ∧
    (∀ r ∈ (handle (cfgA none) db1 DbFailure.healthy
        ⟨Method.post, "/api/a", some [9]⟩).2.1.rows,
      r.meta.uploaded = r.image.isSome) :=
  ⟨by decide,
    rows_uploaded_iff_image (cfgA none) db1 DbFailure.healthy
      ⟨Method.post, "/api/a", some [9]⟩ (by decide)⟩

/-- Claim C9: the table is append-only: every request's resulting table is
the old rows with at most one row appended (never an update or delete); a
POST answered 200 appends exactly one row, and a request that is not a POST
appends nothing. -/
theorem append_only (c : AppConfig) (db : Db) (fl : DbFailure) (req : Request) :
    ∃ extra : List DbRow,
      (handle c db fl req).2.1.rows = db.rows ++ extra ∧
      extra.length ≤ 1 ∧
      ((handle c db fl req).1.status = 200 ∧ req.method = Method.post →
        extra.length = 1) ∧
      (req.method ≠ Method.post → extra = []) := by
  unfold handle
  split
  next hm =>
    exact ⟨[], by simp, by simp, fun hc => absurd (hc.2.symm.trans hm) (by decide),
      fun _ => rfl⟩
  next =>
    split
    next hg =>
      exact ⟨[], by simp, by simp, fun hc => absurd (hc.2.symm.trans hg.1) (by decide),
        fun _ => rfl⟩
    next =>
      split
      next hg =>
        exact ⟨[], by simp, by simp, fun hc => absurd (hc.2.symm.trans hg.1) (by decide),
          fun _ => rfl⟩
      next =>
        split
        next hg =>
          exact ⟨[], by simp, by simp, fun hc => absurd (hc.2.symm.trans hg.1) (by decide),
            fun _ => rfl⟩
        next =>
          split
          next hp =>
            cases fl with
            | healthy =>
                exact ⟨[insertedRow db c.backend ⟨req.file.isSome⟩ req.file], rfl,
                  by simp, fun _ => rfl, fun hnp => absurd hp.1 hnp⟩
            | insertFail msg =>
                refine ⟨[], by simp [handlePost], by simp, fun hc => ?_,
                  fun hnp => absurd hp.1 hnp⟩
                exact absurd (show (500 : Nat) = 200 from hc.1) (by decide)
            | selectFail msg =>
                exact ⟨[insertedRow db c.backend ⟨req.file.isSome⟩ req.file], rfl,
                  by simp, fun _ => rfl, fun hnp => absurd hp.1 hnp⟩
          next =>
            exact ⟨[], by simp, by simp,
              fun hc => absurd (show (404 : Nat) = 200 from hc.1) (by decide),
              fun _ => rfl⟩

/-- Claim C9, witness: a concrete successful POST appends exactly one row to
the empty table. -/
theorem append_only_witness :
    ∃ extra : List DbRow,
      (handle (cfgA none) emptyDb DbFailure.healthy
          ⟨Method.post, "/api/a", some [1]⟩).2.1.rows = emptyDb.rows ++ extra ∧
      extra.length ≤ 1 ∧
      ((handle (cfgA none) emptyDb DbFailure.healthy
          ⟨Method.post, "/api/a", some [1]⟩).1.status = 200 ∧
        Method.post = Method.post → extra.length = 1) ∧
      (Method.post ≠ Method.post → extra = []) :=
  append_only (cfgA none) emptyDb DbFailure.healthy ⟨Method.post, "/api/a", some [1]⟩

/-! ### Health endpoint and CORS preflight -/

/-- Claim C7, counterexample: with the `PORT` environment variable set to
`3000`, `GET /health` answers 200 but its `port` field is the string `3000`,
not a number — `process.env` values are strings and `PORT || 8080` keeps the
string. -/
theorem health_port_string_cex :
    (handle (cfgA (some "3000")) emptyDb DbFailure.healthy
        ⟨Method.get, "/health", none⟩).1 =
      ⟨200, corsHeaders, Body.health "ok" "backend-a" (JsValue.str "3000")⟩ ∧
    (JsValue.str "3000").isNum = false := by decide

/-- Claim C7, amended: `GET /health`, regardless of table contents and of
datastore availability, answers 200 with `status = ok`, the fixed identity,
and `port` the `PORT` configuration value — the number 8080 when the `PORT`
environment variable is unset or empty, and the environment string itself
(not a number) otherwise. -/
theorem health_response (env : Option String) (db : Db) (fl : DbFailure) :
    handle (cfgA env) db fl ⟨Method.get, "/health", none⟩ =
      (⟨200, corsHeaders, Body.health "ok" "backend-a" (portValue env)⟩, db, []) ∧
    (portValue env).isNum = (env.getD "" == "") := by
  refine ⟨rfl, ?_⟩
  cases env with
  | none => rfl
  | some s =>
      by_cases h : s = ""
      · subst h
        rfl
      · simp [portValue, h, JsValue.isNum, Option.getD]

/-- Claim C8, counterexample: an OPTIONS request on the API route answers
with body `OK` — the status text sent by `res.sendStatus(200)` — which is not
the empty body. -/
theorem options_body_cex :
    (handle (cfgA none) emptyDb DbFailure.healthy
        ⟨Method.options, "/api/a", none⟩).1.body = Body.text "OK" ∧
    ("OK" : String) ≠ "" := by decide

/-- Claim C8, amended: every OPTIONS request, on any route, answers 200 with
the status text `OK` as body (not an empty body) and the three permissive
CORS headers, leaving the table untouched. -/
theorem options_any_route (env : Option String) (db : Db) (fl : DbFailure)
    (p : String) (f : Option Bytes) :
    handle (cfgA env) db fl ⟨Method.options, p, f⟩ =
      (⟨200,
        [ ("Access-Control-Allow-Origin", "*"),
          ("Access-Control-Allow-Methods", "GET, POST, OPTIONS"),
          ("Access-Control-Allow-Headers", "Content-Type")],
        Body.text "OK"⟩, db, []) := rfl

/-! ### The two instances are the same program up to renaming -/

/-- Swap the two identity constants; any other string is untouched. -/
def swapStr (s : String) : String :=
  if s = "backend-a" then "backend-b"
  else if s = "backend-b" then "backend-a"
  else s

/-- Swap the two API route paths; any other path is untouched. -/
def swapPath (p : String) : String :=
  if p = "/api/a" then "/api/b"
  else if p = "/api/b" then "/api/a"
  else p

/-- Swap the two API usage strings shown by the root route. -/
def swapInfo (s : String) : String :=
  if s = "/api/a (POST for data submission)" then "/api/b (POST for data submission)"
  else if s = "/api/b (POST for data submission)" then "/api/a (POST for data submission)"
  else s

/-- Rename the writing identity of a stored row. -/
def swapDbRow (r : DbRow) : DbRow :=
  ⟨r.id, swapStr r.backend_name, r.ts, r.meta, r.image⟩

/-- Rename the writing identity of a read-back row. -/
def swapRespRow (r : RespRow) : RespRow :=
  ⟨r.id, swapStr r.backend_name, r.ts, r.meta⟩

/-- Rename the writing identities throughout the table. -/
def swapDb (db : Db) : Db :=
  ⟨db.rows.map swapDbRow, db.nextId, db.clock⟩

/-- Rename the route of a request. -/
def swapReq (req : Request) : Request :=
  ⟨req.method, swapPath req.path, req.file⟩

/-- Rename identities and routes inside a response body. -/
def swapBody : Body → Body
  | Body.text s => Body.text s
  | Body.root b m h a => Body.root (swapStr b) m h (swapInfo a)
  | Body.health st b p => Body.health st (swapStr b) p
  | Body.apiInfo b m e => Body.apiInfo (swapStr b) m (swapPath e)
  | Body.postOk b rows u => Body.postOk (swapStr b) (rows.map swapRespRow) u
  | Body.err e d => Body.err e d
  | Body.notFound => Body.notFound

/-- Rename a full handler outcome: response body, table, and logs. -/
def swapOut (o : HttpResponse × Db × List String) : HttpResponse × Db × List String :=
  (⟨o.1.status, o.1.headers, swapBody o.1.body⟩, swapDb o.2.1, o.2.2)

/-- Renaming the identity of `backend-a`. -/
theorem swapStr_a : swapStr "backend-a" = "backend-b" := rfl

/-- Ordered insertion only looks at `ts`, which renaming preserves. -/
theorem orderedInsert_swap (a : DbRow) :
    ∀ l : List DbRow,
      List.orderedInsert tsGE (swapDbRow a) (l.map swapDbRow) =
        (List.orderedInsert tsGE a l).map swapDbRow := by
  intro l
  induction l with
  | nil => rfl
  | cons b l ih =>
      simp only [List.map_cons, List.orderedInsert]
      by_cases h : tsGE a b
      · rw [if_pos (show tsGE (swapDbRow a) (swapDbRow b) from h), if_pos h]
        simp
      · rw [if_neg (show ¬ tsGE (swapDbRow a) (swapDbRow b) from h), if_neg h]
        simp only [List.map_cons]
        rw [ih]

/-- Sorting by `ts` commutes with renaming identities. -/
theorem insertionSort_swap :
    ∀ l : List DbRow,
      List.insertionSort tsGE (l.map swapDbRow) =
        (List.insertionSort tsGE l).map swapDbRow := by
  intro l
  induction l with
  | nil => rfl
  | cons a l ih =>
      show List.orderedInsert tsGE (swapDbRow a) (List.insertionSort tsGE (l.map swapDbRow)) =
        (List.orderedInsert tsGE a (List.insertionSort tsGE l)).map swapDbRow
      rw [ih, orderedInsert_swap]

/-- The read-back query commutes with renaming identities. -/
theorem selectRecent_swap (rows : List DbRow) :
    selectRecent (rows.map swapDbRow) = (selectRecent rows).map swapRespRow := by
  unfold selectRecent
  rw [insertionSort_swap, ← List.map_take, List.map_map, List.map_map]
  rfl

/-- Inserting under the renamed identity is renaming the inserted table. -/
theorem swapDb_insert (db : Db) (b : String) (m : Meta) (i : Option Bytes) :
    swapDb (db.insert b m i) = (swapDb db).insert (swapStr b) m i := by
  simp only [swapDb, Db.insert, List.map_append, List.map_cons, List.map_nil]
  rfl

/-- The POST handler of instance B on the renamed table is the renaming of
the POST handler of instance A. -/
theorem handlePost_swap (env : Option String) (db : Db) (fl : DbFailure) (f : Option Bytes) :
    handlePost (cfgB env) (swapDb db) fl f = swapOut (handlePost (cfgA env) db fl f) := by
  cases fl with
  | insertFail msg => rfl
  | selectFail msg =>
      simp only [handlePost, cfgA, cfgB, swapOut, swapBody, ← swapStr_a, ← swapDb_insert]
  | healthy =>
      simp only [handlePost, cfgA, cfgB, swapOut, swapBody, ← swapStr_a, ← swapDb_insert]
      rw [show (swapDb (db.insert "backend-a" ⟨f.isSome⟩ f)).rows =
        (db.insert "backend-a" ⟨f.isSome⟩ f).rows.map swapDbRow from rfl, selectRecent_swap]

/-- Claim C6: the two deployed instances run the identical logic up to
substituting the identity constant and the `/api/a` vs `/api/b` route: on
every request, instance B applied to the renamed request and renamed table
produces exactly the renaming of instance A's response, table effect and
logs. -/
theorem instances_identical_up_to_renaming (env : Option String) (db : Db)
    (fl : DbFailure) (req : Request) :
    handle (cfgB env) (swapDb db) fl (swapReq req) =
      swapOut (handle (cfgA env) db fl req) := by
  obtain ⟨m, p, f⟩ := req
  cases m with
  | options => rfl
  | get =>
      by_cases h1 : p = "/"
      · subst h1; rfl
      by_cases h2 : p = "/health"
      · subst h2; rfl
      by_cases h3 : p = "/api/a"
      · subst h3; rfl
      by_cases h4 : p = "/api/b"
      · subst h4; rfl
      have hs : swapPath p = p := by simp [swapPath, h3, h4]
      simp only [handle, swapReq, hs, cfgA, cfgB]
      simp [h1, h2, h3, h4, swapOut, swapBody]
  | post =>
      by_cases h3 : p = "/api/a"
      · subst h3
        exact handlePost_swap env db fl f
      by_cases h4 : p = "/api/b"
      · subst h4; rfl
      have hs : swapPath p = p := by simp [swapPath, h3, h4]
      simp only [handle, swapReq, hs, cfgA, cfgB]
      simp [h3, h4, swapOut, swapBody]

end Capstone
